import Mathlib

/-!
Verification of the geocoin-game logic in `src/main.ts` of this repository.

The TypeScript source is shallowly embedded: JS numbers are modelled as
exact rationals (all coordinate arithmetic here stays within rationals that
the relevant doubles represent exactly), token collections as lists, JSON
texts as their parse trees, and JS exceptions as `Except`/`Option` results.
DOM handles (canvas, rendering context, Leaflet map objects) carry no game
state and are omitted from the embedded records.
-/

namespace Geocache

/-- Math.round on a JS number: floor of x + 1/2, for negative inputs as well. -/
def jsRound (q : ℚ) : ℤ := ⌊q + 1/2⌋

/-- GRID_LATLNG_DIMENSIONS = 1e-4 (main.ts line 41). -/
def GRID_LATLNG_DIMENSIONS : ℚ := 1/10000

/-- GEOCOIN_CACHE_PROBABILITY = 0.1 (main.ts line 44). -/
def GEOCOIN_CACHE_PROBABILITY : ℚ := 1/10

/-- GEOCOIN_CACHE_MAX_VALUE = 100 (main.ts line 45). -/
def GEOCOIN_CACHE_MAX_VALUE : ℚ := 100

/-- GEOCOIN_CACHE_MIN_VALUE = 1 (main.ts line 46). -/
def GEOCOIN_CACHE_MIN_VALUE : ℚ := 1

/-- lerp (main.ts lines 142-144): min + weight * (max - min). -/
def lerp (lo hi weight : ℚ) : ℚ := lo + weight * (hi - lo)

/-- A geographic position, the extrinsic flyweight state (leaflet.LatLng). -/
structure LatLng where
  lat : ℚ
  lng : ℚ
deriving DecidableEq, Repr

/-- Drops trailing '0' characters, used to render fractional digit blocks. -/
def stripTrailingZeros (cs : List Char) : List Char :=
  (cs.reverse.dropWhile (fun c => c = '0')).reverse

/-- Pads a digit block with leading '0' characters up to width n. -/
def padLeftZeros (cs : List Char) (n : ℕ) : List Char :=
  List.replicate (n - cs.length) '0' ++ cs

/-- Decimal rendering of the number m / 10^6, the way JS converts such a
number to a string: optional sign, integer part, and the fractional digits
without trailing zeros (no decimal point when the fraction is zero). -/
def decimalOfScaled (m : ℤ) : String :=
  let sign : String := if m < 0 then "-" else ""
  let n : ℕ := m.natAbs
  let ip : ℕ := n / 1000000
  let fp : ℕ := n % 1000000
  if fp = 0 then sign ++ toString ip
  else
    sign ++ toString ip ++ "." ++
      String.mk (stripTrailingZeros (padLeftZeros (toString fp).data 6))

/-- Models Leaflet Util.formatNum at its default precision 6 followed by JS
number-to-string: the number is rounded to 6 decimal places
(Math.round(num * 10^6) / 10^6) and rendered in decimal. -/
def formatNumStr (q : ℚ) : String := decimalOfScaled (jsRound (q * 1000000))

/-- Models leaflet.LatLng.prototype.toString, which template literals in
main.ts invoke on cell coordinates: "LatLng(lat, lng)" with both
coordinates formatted by Util.formatNum at precision 6. -/
def latLngToString (p : LatLng) : String :=
  "LatLng(" ++ formatNumStr p.lat ++ ", " ++ formatNumStr p.lng ++ ")"

/-- getNearestDiscreteLatLng (main.ts lines 222-231): rounds each coordinate
to the nearest multiple of the given margins. -/
def getNearestDiscreteLatLng (p : LatLng) (marginLat marginLng : ℚ) : LatLng :=
  ⟨(jsRound (p.lat / marginLat) : ℚ) * marginLat,
   (jsRound (p.lng / marginLng) : ℚ) * marginLng⟩

/-- Geocoin = string (main.ts line 51). -/
abbrev Geocoin := String

/-- The game-state fields of GeocoinGridCell (main.ts lines 64-72); the
canvas and rendering-context fields are DOM handles holding no game state
and the memento functions are method wrappers around the standalone
functions embedded below. -/
structure GeocoinGridCell where
  latLng : LatLng
  hasCache : Bool
  coins : List Geocoin
deriving DecidableEq, Repr

/-- JSON parse trees: the values JSON.parse produces and JSON.stringify
consumes. Mementos are handled at this tree level; the textual
stringify/parse step is the identity on these trees. -/
inductive Json where
  | null
  | bool (b : Bool)
  | num (q : ℚ)
  | str (s : String)
  | arr (elems : List Json)
  | obj (fields : List (String × Json))

/-- JS property access value[key]: a field of an object, none (undefined)
for a missing field or a non-object. -/
def Json.get? : Json → String → Option Json
  | .obj fields, key => fields.lookup key
  | _, _ => none

/-- Reads a JSON number, as leaflet.latLng requires of lat/lng fields. -/
def Json.asNum? : Json → Option ℚ
  | .num q => some q
  | _ => none

/-- Reads a JSON boolean (the type the memento encoder wrote). -/
def Json.asBool? : Json → Option Bool
  | .bool b => some b
  | _ => none

/-- Reads a JSON string (the type the memento encoder wrote). -/
def Json.asStr? : Json → Option String
  | .str s => some s
  | _ => none

/-- Reads a JSON array of strings (the type the memento encoder wrote). -/
def Json.asStrList? : Json → Option (List String)
  | .arr elems => elems.mapM Json.asStr?
  | _ => none

/-- geocoinGridCellToMemento (main.ts lines 233-239): the memento is the
JSON encoding of the latLng pair, the presence flag and the coin list. -/
def geocoinGridCellToMemento (cell : GeocoinGridCell) : Json :=
  .obj [("latLng", .obj [("lat", .num cell.latLng.lat), ("lng", .num cell.latLng.lng)]),
        ("hasCache", .bool cell.hasCache),
        ("coins", .arr (cell.coins.map Json.str))]

/-- populateGeocoinGridCellFromMemento (main.ts lines 241-258):
asHavingProperties demands the latLng, hasCache and coins keys (throwing
when one is missing, modelled by none), leaflet.latLng demands numeric
lat/lng, and the decoded fields are written back to the cell. -/
def populateGeocoinGridCellFromMemento (memento : Json) : Option GeocoinGridCell := do
  let latLngJson ← memento.get? "latLng"
  let hasCacheJson ← memento.get? "hasCache"
  let coinsJson ← memento.get? "coins"
  let lat ← (latLngJson.get? "lat").bind Json.asNum?
  let lng ← (latLngJson.get? "lng").bind Json.asNum?
  let hasCache ← hasCacheJson.asBool?
  let coins ← coinsJson.asStrList?
  return { latLng := ⟨lat, lng⟩, hasCache := hasCache, coins := coins }

/-- arrayRemove (main.ts lines 159-171): removes the first element
satisfying the predicate, returning it and the shifted-down remainder, or
none with the list untouched when no element matches. -/
def arrayRemove {α : Type} (ts : List α) (p : α → Bool) : Option α × List α :=
  match ts with
  | [] => (none, [])
  | t :: rest =>
    if p t then (some t, rest)
    else
      let r := arrayRemove rest p
      (r.1, t :: r.2)

/-- moveCoin (main.ts lines 322-343). Returns the result flag together
with the source and destination contents after the call: an empty source
is an immediate failure, a missing coin argument defaults to from[0], and
the coin removed by arrayRemove (matched by strict equality) is pushed
onto the destination. -/
def moveCoin (fromCoins toCoins : List Geocoin) (coin? : Option Geocoin) :
    Bool × List Geocoin × List Geocoin :=
  if fromCoins.length ≤ 0 then (false, fromCoins, toCoins)
  else
    let coin := coin?.getD (fromCoins.headD "")
    let taken := arrayRemove fromCoins (fun candidate => candidate == coin)
    match taken.1 with
    | some coinTaken => (true, taken.2, toCoins ++ [coinTaken])
    | none => (false, taken.2, toCoins)

/-- moveAllCoins (main.ts lines 345-353): pushes every source coin onto
the destination in order, then truncates the source to length 0. Returns
the source and destination contents after the call. -/
def moveAllCoins (fromCoins toCoins : List Geocoin) : List Geocoin × List Geocoin :=
  (([] : List Geocoin), fromCoins.foldl (fun acc coin => acc ++ [coin]) toCoins)

/-- The key queried for cache presence (main.ts line 304): the template
literal interpolates cell.latLng via leaflet.LatLng.prototype.toString. -/
def cachePresenceKey (latLng : LatLng) : String :=
  "Is there a geocoin cache at " ++ latLngToString latLng ++ "?"

/-- The key queried for the cache size (main.ts line 311). -/
def cacheCountKey (latLng : LatLng) : String :=
  "How many geocoins are in the cache at " ++ latLngToString latLng ++ "?"

/-- The token label pushed for index i (main.ts line 314): the template
literal interpolates cell.latLng via leaflet.LatLng.prototype.toString. -/
def geocoinLabel (i : ℕ) (latLng : LatLng) : String :=
  "#" ++ toString i ++ "@" ++ latLngToString latLng

/-- tryGenerateGeocoinCache (main.ts lines 300-320), parameterized by the
deterministic randomness function luck from luck.ts. Modelled from the
spec: luck.ts is not among the available sources; per the spec it is a
pure function from a string key to a value in [0,1), so it enters here as
an explicit function argument. Returns the hasCache flag and the generated
coin list. -/
def tryGenerateGeocoinCache (luck : String → ℚ) (latLng : LatLng) :
    Bool × List Geocoin :=
  let hasCache : Bool :=
    decide (luck (cachePresenceKey latLng) > 1 - GEOCOIN_CACHE_PROBABILITY)
  let coins : List Geocoin :=
    if hasCache then
      let count : ℤ := jsRound (lerp GEOCOIN_CACHE_MIN_VALUE
        GEOCOIN_CACHE_MAX_VALUE (luck (cacheCountKey latLng)))
      (List.range count.toNat).map (fun i => geocoinLabel (i + 1) latLng)
    else []
  (hasCache, coins)

/-- The operations main.ts performs on an existing grid cell after its
generation: the popup buttons (main.ts lines 560-598) run moveCoin or
moveAllCoins between cell.coins and the player inventory, and
saveGridCell followed by a later getGridCell re-read (main.ts lines
355-376) encodes the cell to its memento and decodes it back. The popup
is only reachable for cells whose hasCache flag is set (main.ts line 554
returns early otherwise). -/
inductive CellOp where
  | takeCoin (inventory : List Geocoin)
  | leaveCoin (inventory : List Geocoin) (coin? : Option Geocoin)
  | takeAll (inventory : List Geocoin)
  | leaveAll (inventory : List Geocoin)
  | mementoRoundTrip

/-- Effect of a CellOp on the cell itself. For the transfer operations the
cell keeps its latLng and hasCache fields and only cell.coins is
reassigned; the memento round trip rebuilds the cell from its encoded
string, falling back to the cell itself where decoding would throw. -/
def applyCellOp (cell : GeocoinGridCell) (op : CellOp) : GeocoinGridCell :=
  match op with
  | .mementoRoundTrip =>
    (populateGeocoinGridCellFromMemento (geocoinGridCellToMemento cell)).getD cell
  | .takeCoin inventory =>
    if cell.hasCache then
      { cell with coins := (moveCoin cell.coins inventory none).2.1 }
    else cell
  | .leaveCoin inventory coin? =>
    if cell.hasCache then
      { cell with coins := (moveCoin inventory cell.coins coin?).2.2 }
    else cell
  | .takeAll inventory =>
    if cell.hasCache then
      { cell with coins := (moveAllCoins cell.coins inventory).1 }
    else cell
  | .leaveAll inventory =>
    if cell.hasCache then
      { cell with coins := (moveAllCoins inventory cell.coins).2 }
    else cell

/-- The game-state fields of AppState (main.ts lines 98-104): the marker
position (the map and marker objects are Leaflet handles), the grid
mapping coordinate keys to cell-memento values, and the owned coins.
Deserialization copies grid and coin entries from parsed JSON without type
checks, so both are stored here as JSON values; states the program itself
builds hold .str values only. -/
structure AppState where
  userMarkerLatLng : LatLng
  grid : List (String × Json)
  coinsOwned : List Json

/-- Object.keys combined with indexed access, applied to an arbitrary JS
value as deserializeAppState does with mementoObject.grid: undefined and
null make Object.keys throw a TypeError, objects yield their own
enumerable entries, arrays and strings yield index-keyed entries, and
other primitives box to objects with no own keys. -/
def jsObjectEntries : Option Json → Except Unit (List (String × Json))
  | none => .error ()
  | some .null => .error ()
  | some (.obj fields) => .ok fields
  | some (.arr elems) => .ok (elems.enum.map (fun p => (toString p.1, p.2)))
  | some (.str s) =>
    .ok (s.data.enum.map (fun p => (toString p.1, Json.str (String.mk [p.2]))))
  | some _ => .ok []

/-- for-of iteration over an arbitrary JS value as deserializeAppState
does with mementoObject.coinsOwned: arrays yield their elements, strings
yield their characters, anything else (undefined included) throws a
TypeError for want of an iterator. -/
def jsIterate : Option Json → Except Unit (List Json)
  | some (.arr elems) => .ok elems
  | some (.str s) => .ok (s.data.map (fun c => Json.str (String.mk [c])))
  | _ => .error ()

/-- deserializeAppState (main.ts lines 472-496) on an already parsed
memento: the grid is cleared and refilled from mementoObject.grid, the
owned coins are cleared and refilled from mementoObject.coinsOwned, and
the marker is moved to mementoObject.userMarkerLatLng (whose lat and lng
leaflet.latLng requires to be numbers). The function performs these
mutations in source order with no exception handling, so a throw is
modelled as an error result carrying the state as already mutated at the
point of the throw. -/
def deserializeAppState (state : AppState) (parsed : Json) :
    Except AppState AppState :=
  let cleared : AppState := { state with grid := [] }
  match jsObjectEntries (parsed.get? "grid") with
  | .error _ => .error cleared
  | .ok entries =>
    let withGrid : AppState := { cleared with grid := entries }
    let coinsCleared : AppState := { withGrid with coinsOwned := [] }
    match jsIterate (parsed.get? "coinsOwned") with
    | .error _ => .error coinsCleared
    | .ok coins =>
      let withCoins : AppState := { coinsCleared with coinsOwned := coins }
      match parsed.get? "userMarkerLatLng" with
      | none => .error withCoins
      | some markerJson =>
        match (markerJson.get? "lat").bind Json.asNum?,
              (markerJson.get? "lng").bind Json.asNum? with
        | some lat, some lng =>
          .ok { withCoins with userMarkerLatLng := ⟨lat, lng⟩ }
        | some _, none => .error withCoins
        | none, _ => .error withCoins

/-- loadStateFromLocalStorage (main.ts lines 747-755). The stored argument
models localStorage.getItem("serializedAppState"): none when the key is
absent (the function returns false and touches nothing), some none when a
value is present but is not valid JSON (JSON.parse throws before any
mutation), and some (some parsed) when the value parses to the given
tree, in which case deserializeAppState runs with no exception handler. -/
def loadStateFromLocalStorage (state : AppState) (stored : Option (Option Json)) :
    Except AppState (Bool × AppState) :=
  match stored with
  | none => .ok (false, state)
  | some none => .error state
  | some (some parsed) =>
    match deserializeAppState state parsed with
    | .error errState => .error errState
    | .ok newState => .ok (true, newState)

/-- A luck function used to witness the cache-size theorem: probability
0.95 on every key except the coin-count key of the origin cell, where it
returns 0 (the minimum of the coin-count range). -/
def luckLowCount : String → ℚ :=
  fun key => if key = cacheCountKey ⟨0, 0⟩ then 0 else 95/100

/-- A luck function assigning 0.95 to the claimed presence-key string of
the cell at 36.9999,-122.0001 and 0 to every other key, separating the
key the spec names from the key the code builds. -/
def luckClaimedKeyOnly : String → ℚ :=
  fun key =>
    if key = "Is there a geocoin cache at 36.9999,-122.0001?" then 95/100 else 0

/-- Decoding a list of string nodes recovers the encoded strings, for any
accumulator of the traversal loop. -/
theorem mapM_asStr_loop (l acc : List String) :
    List.mapM.loop Json.asStr? (l.map Json.str) acc = some (acc.reverse ++ l) := by
  induction l generalizing acc with
  | nil => simp [List.mapM.loop]
  | cons a l ih => simp [List.mapM.loop, Json.asStr?, ih]

/-- Decoding a list of string nodes recovers the encoded strings. -/
theorem mapM_asStr_map (l : List String) :
    (l.map Json.str).mapM Json.asStr? = some l := by
  have h := mapM_asStr_loop l []
  simpa [List.mapM] using h

/-- Shared round-trip lemma: decoding an encoded cell memento restores the
cell. -/
theorem cell_memento_roundtrip (cell : GeocoinGridCell) :
    populateGeocoinGridCellFromMemento (geocoinGridCellToMemento cell) = some cell := by
  simp [populateGeocoinGridCellFromMemento, geocoinGridCellToMemento, Json.get?,
    List.lookup, Json.asNum?, Json.asBool?, Json.asStrList?, mapM_asStr_loop]

/-- C1: for every grid-cell state, decoding the cell's encoded memento
reconstructs a cell equal to the original: populateGeocoinGridCellFromMemento
applied to geocoinGridCellToMemento restores the same latLng, hasCache and
coins. -/
theorem c1_memento_roundtrip (cell : GeocoinGridCell) :
    populateGeocoinGridCellFromMemento (geocoinGridCellToMemento cell) = some cell :=
  cell_memento_roundtrip cell

/-- C5: moveCoin from an empty source returns the failure indicator and
leaves both collections exactly unchanged, for every destination and every
optional coin argument. -/
theorem c5_moveCoin_empty_source (toCoins : List Geocoin) (coin? : Option Geocoin) :
    moveCoin [] toCoins coin? = (false, [], toCoins) := rfl

/-- Pushing elements one by one onto an accumulator appends the list. -/
theorem foldl_push_eq_append (l acc : List Geocoin) :
    l.foldl (fun acc coin => acc ++ [coin]) acc = acc ++ l := by
  induction l generalizing acc with
  | nil => simp
  | cons a l ih => simp [List.foldl_cons, ih]

/-- C6: moveAllCoins appends the entire source collection to the
destination, in source order after the destination's existing contents,
and leaves the source empty. -/
theorem c6_moveAllCoins_spec (fromCoins toCoins : List Geocoin) :
    moveAllCoins fromCoins toCoins = ([], toCoins ++ fromCoins) := by
  simp [moveAllCoins, foldl_push_eq_append]

/-- C8 counterexample: with no coin given, moveCoin on the cache
["#1@X", "#2@X"] and an empty inventory yields cache ["#2@X"] and
inventory ["#1@X"], not the cache ["#1@X"] and inventory ["#2@X"] the
claim's stack-order policy predicts. -/
theorem c8_lifo_counterexample :
    moveCoin ["#1@X", "#2@X"] [] none = (true, ["#2@X"], ["#1@X"]) ∧
    ((true, ["#2@X"], ["#1@X"]) : Bool × List Geocoin × List Geocoin) ≠
      (true, ["#1@X"], ["#2@X"]) := by
  exact ⟨rfl, by decide⟩

/-- C8 amended: with no coin given, moveCoin removes the first token of
the source (from[0], queue order) and appends it to the destination. -/
theorem c8_moveCoin_default_takes_first (first : Geocoin) (rest toCoins : List Geocoin) :
    moveCoin (first :: rest) toCoins none = (true, rest, toCoins ++ [first]) := by
  simp [moveCoin, arrayRemove]

/-- When arrayRemove finds nothing, the array is left exactly as it was. -/
theorem arrayRemove_none_eq {α : Type} (ts : List α) (p : α → Bool)
    (h : (arrayRemove ts p).1 = none) : (arrayRemove ts p).2 = ts := by
  induction ts with
  | nil => rfl
  | cons t rest ih =>
    by_cases hp : p t
    · simp [arrayRemove, hp] at h
    · simp only [arrayRemove, hp] at h ⊢
      simp only [Bool.false_eq_true, if_false] at h ⊢
      rw [ih h]

/-- When arrayRemove finds an element, the original array is a permutation
of that element together with the remainder. -/
theorem arrayRemove_perm {α : Type} (ts : List α) (p : α → Bool) (c : α)
    (h : (arrayRemove ts p).1 = some c) :
    ts.Perm (c :: (arrayRemove ts p).2) := by
  induction ts with
  | nil => simp [arrayRemove] at h
  | cons t rest ih =>
    by_cases hp : p t
    · simp only [arrayRemove, hp, if_true] at h ⊢
      cases h
      exact List.Perm.refl _
    · simp only [arrayRemove, hp, Bool.false_eq_true, if_false] at h ⊢
      exact ((ih h).cons t).trans (List.Perm.swap c t _)

/-- When the sought coin is absent, arrayRemove finds nothing and leaves
the array as it was. -/
theorem arrayRemove_not_found (ts : List Geocoin) (coin : Geocoin)
    (h : coin ∉ ts) :
    arrayRemove ts (fun candidate => candidate == coin) = (none, ts) := by
  induction ts with
  | nil => rfl
  | cons t rest ih =>
    rw [List.mem_cons] at h
    push_neg at h
    have ht : (t == coin) = false := by
      rw [beq_eq_false_iff_ne]
      exact fun e => h.1 e.symm
    simp only [arrayRemove, ht, Bool.false_eq_true, if_false, ih h.2]

/-- Conservation for a single moveCoin call: the coins present across the
two collections after the call are a permutation of those before it. -/
theorem moveCoin_conserves (fromCoins toCoins : List Geocoin) (coin? : Option Geocoin) :
    ((moveCoin fromCoins toCoins coin?).2.1 ++
      (moveCoin fromCoins toCoins coin?).2.2).Perm (fromCoins ++ toCoins) := by
  by_cases hlen : fromCoins.length ≤ 0
  · simp only [moveCoin, hlen, if_true]
    exact List.Perm.refl _
  · simp only [moveCoin, hlen, if_false]
    cases hr : (arrayRemove fromCoins
        (fun candidate => candidate == coin?.getD (fromCoins.headD ""))).1 with
    | none =>
      simp only [arrayRemove_none_eq _ _ hr]
      exact List.Perm.refl _
    | some c =>
      have hp := arrayRemove_perm _ _ _ hr
      refine List.Perm.trans ?_ ((hp.append_right toCoins).symm)
      refine List.Perm.trans
        (List.Perm.append_left _ (List.perm_append_singleton c toCoins)) ?_
      exact List.perm_middle

/-- C9: both moveCoin and moveAllCoins conserve coins: the multiset union
of source and destination after the operation equals the multiset union
before it, whether the call succeeds or fails. -/
theorem c9_transfers_conserve_coins (fromCoins toCoins : List Geocoin)
    (coin? : Option Geocoin) :
    (((moveCoin fromCoins toCoins coin?).2.1 : Multiset Geocoin) +
        ((moveCoin fromCoins toCoins coin?).2.2 : Multiset Geocoin) =
      (fromCoins : Multiset Geocoin) + (toCoins : Multiset Geocoin)) ∧
    (((moveAllCoins fromCoins toCoins).1 : Multiset Geocoin) +
        ((moveAllCoins fromCoins toCoins).2 : Multiset Geocoin) =
      (fromCoins : Multiset Geocoin) + (toCoins : Multiset Geocoin)) := by
  constructor
  · rw [Multiset.coe_add, Multiset.coe_add, Multiset.coe_eq_coe]
    exact moveCoin_conserves fromCoins toCoins coin?
  · rw [Multiset.coe_add, Multiset.coe_add, Multiset.coe_eq_coe,
      c6_moveAllCoins_spec]
    show (([] : List Geocoin) ++ (toCoins ++ fromCoins)).Perm (fromCoins ++ toCoins)
    rw [List.nil_append]
    exact List.perm_append_comm

/-- C10: with a non-empty source and an explicitly given coin that the
source does not contain, moveCoin reports failure and leaves both
collections exactly unchanged. -/
theorem c10_moveCoin_absent_coin (fromCoins toCoins : List Geocoin) (coin : Geocoin)
    (hne : fromCoins ≠ []) (habs : coin ∉ fromCoins) :
    moveCoin fromCoins toCoins (some coin) = (false, fromCoins, toCoins) := by
  have hlen : ¬ fromCoins.length ≤ 0 := by
    simpa [List.length_eq_zero] using hne
  simp only [moveCoin, hlen, if_false, Option.getD_some,
    arrayRemove_not_found fromCoins coin habs]

/-- C10 witness at a concrete input: the source ["#1@X"] is non-empty and
does not contain "#2@X", and the call fails leaving both sides unchanged. -/
theorem c10_moveCoin_absent_coin_witness :
    ((["#1@X"] : List Geocoin) ≠ [] ∧ "#2@X" ∉ (["#1@X"] : List Geocoin)) ∧
    moveCoin ["#1@X"] [] (some "#2@X") = (false, ["#1@X"], []) :=
  ⟨⟨by decide, by decide⟩,
    c10_moveCoin_absent_coin ["#1@X"] [] "#2@X" (by decide) (by decide)⟩

/-- C7 counterexample: a coin transfer changes the emptiness of a cell's
token collection: taking the only coin of a cache turns its collection
from non-empty to empty. -/
theorem c7_emptiness_counterexample :
    ((⟨⟨0, 0⟩, true, ["#1@X"]⟩ : GeocoinGridCell).coins ≠ []) ∧
    (applyCellOp ⟨⟨0, 0⟩, true, ["#1@X"]⟩ (CellOp.takeCoin [])).coins = [] := by
  exact ⟨by simp, rfl⟩

/-- C7 amended: every cell operation (coin transfers, memento save and
re-read) preserves the cell's hasCache flag and coordinate, and the token
collection of a cell without a cache is never touched; only the contents
of a cache cell's token collection change. -/
theorem c7_generation_invariants (cell : GeocoinGridCell) (op : CellOp) :
    ((applyCellOp cell op).hasCache = cell.hasCache ∧
      (applyCellOp cell op).latLng = cell.latLng) ∧
    ∀ (latLng : LatLng) (coins : List Geocoin),
      (applyCellOp ⟨latLng, false, coins⟩ op).coins = coins := by
  refine ⟨?_, ?_⟩
  · cases op with
    | mementoRoundTrip => simp [applyCellOp, cell_memento_roundtrip]
    | takeCoin inventory =>
      by_cases h : cell.hasCache <;> simp [applyCellOp, h]
    | leaveCoin inventory coin? =>
      by_cases h : cell.hasCache <;> simp [applyCellOp, h]
    | takeAll inventory =>
      by_cases h : cell.hasCache <;> simp [applyCellOp, h]
    | leaveAll inventory =>
      by_cases h : cell.hasCache <;> simp [applyCellOp, h]
  · intro latLng coins
    cases op with
    | mementoRoundTrip => simp [applyCellOp, cell_memento_roundtrip]
    | takeCoin inventory => simp [applyCellOp]
    | leaveCoin inventory coin? => simp [applyCellOp]
    | takeAll inventory => simp [applyCellOp]
    | leaveAll inventory => simp [applyCellOp]

/-- C2 counterexample: with a stored value that is valid JSON but not a
well-formed player-state encoding (the number 1, which has no grid
field), loading raises the TypeError thrown by Object.keys(undefined)
after the grid has already been cleared: the call fails fatally and the
state is partially mutated rather than left as a fresh start. -/
theorem c2_malformed_counterexample :
    loadStateFromLocalStorage ⟨⟨0, 0⟩, [("k", Json.str "m")], [Json.str "c"]⟩
        (some (some (Json.num 1))) =
      Except.error ⟨⟨0, 0⟩, [], [Json.str "c"]⟩ := rfl

/-- C2 amended: a missing stored value is treated as no prior state (the
load returns false and leaves the state untouched, raising nothing), but
a malformed stored value is not recovered from: a value that is not valid
JSON makes the load propagate the JSON.parse exception. -/
theorem c2_load_missing_is_fresh_start (state : AppState) :
    loadStateFromLocalStorage state none = Except.ok (false, state) ∧
    loadStateFromLocalStorage state (some none) = Except.error state :=
  ⟨rfl, rfl⟩

/-- The rounding step of formatNum at the example latitude 36.9999. -/
theorem jsRound_lat_example : jsRound ((369999/10000 : ℚ) * 1000000) = 36999900 := by
  unfold jsRound
  rw [show (369999/10000 : ℚ) * 1000000 + 1/2 = 73999801/2 by norm_num]
  rw [Int.floor_eq_iff]
  constructor <;> norm_num

/-- The rounding step of formatNum at the example longitude -122.0001. -/
theorem jsRound_lng_example :
    jsRound ((-1220001/10000 : ℚ) * 1000000) = -122000100 := by
  unfold jsRound
  rw [show (-1220001/10000 : ℚ) * 1000000 + 1/2 = -244000199/2 by norm_num]
  rw [Int.floor_eq_iff]
  constructor <;> norm_num

/-- leaflet.LatLng.prototype.toString at the discretized coordinate
36.9999,-122.0001. -/
theorem latLngToString_example :
    latLngToString ⟨369999/10000, -1220001/10000⟩ = "LatLng(36.9999, -122.0001)" := by
  simp only [latLngToString, formatNumStr]
  rw [jsRound_lat_example, jsRound_lng_example]
  decide

/-- The presence key the code builds for the cell at 36.9999,-122.0001. -/
theorem cachePresenceKey_example :
    cachePresenceKey ⟨369999/10000, -1220001/10000⟩ =
      "Is there a geocoin cache at LatLng(36.9999, -122.0001)?" := by
  unfold cachePresenceKey
  rw [latLngToString_example]
  decide

/-- The presence key and the coin-count key of a cell never coincide:
their fixed parts differ in length by ten characters. -/
theorem presenceKey_ne_countKey (latLng : LatLng) :
    cachePresenceKey latLng ≠ cacheCountKey latLng := by
  intro h
  have hlen := congrArg String.length h
  unfold cachePresenceKey cacheCountKey at hlen
  rw [String.length_append, String.length_append, String.length_append,
    String.length_append] at hlen
  have e1 : ("Is there a geocoin cache at " : String).length = 28 := by decide
  have e2 : ("How many geocoins are in the cache at " : String).length = 38 := by decide
  rw [e1, e2] at hlen
  omega

/-- A cell is generated with a cache exactly when luck of its presence key
exceeds 0.9. -/
theorem tryGenerate_present_iff (luck : String → ℚ) (latLng : LatLng) :
    (tryGenerateGeocoinCache luck latLng).1 = true ↔
      luck (cachePresenceKey latLng) > 9/10 := by
  simp only [tryGenerateGeocoinCache]
  rw [decide_eq_true_iff]
  unfold GEOCOIN_CACHE_PROBABILITY
  constructor <;> intro h <;> linarith

/-- When a cache is generated, the coin list is the labelled range of
length round(lerp(min, max, luck(count key))). -/
theorem tryGenerate_coins_of_present (luck : String → ℚ) (latLng : LatLng)
    (hc : (tryGenerateGeocoinCache luck latLng).1 = true) :
    (tryGenerateGeocoinCache luck latLng).2 =
      (List.range (jsRound (lerp GEOCOIN_CACHE_MIN_VALUE GEOCOIN_CACHE_MAX_VALUE
        (luck (cacheCountKey latLng)))).toNat).map
        (fun i => geocoinLabel (i + 1) latLng) := by
  simp only [tryGenerateGeocoinCache] at hc ⊢
  rw [hc]
  simp

/-- The rounded interpolated coin count lies between 1 and 100 for every
luck value in [0, 1). -/
theorem count_bounds (w : ℚ) (h0 : 0 ≤ w) (h1 : w < 1) :
    1 ≤ (jsRound (lerp GEOCOIN_CACHE_MIN_VALUE GEOCOIN_CACHE_MAX_VALUE w)).toNat ∧
    (jsRound (lerp GEOCOIN_CACHE_MIN_VALUE GEOCOIN_CACHE_MAX_VALUE w)).toNat ≤ 100 := by
  unfold jsRound lerp GEOCOIN_CACHE_MIN_VALUE GEOCOIN_CACHE_MAX_VALUE
  have hlb : (1 : ℤ) ≤ ⌊1 + w * (100 - 1) + 1/2⌋ := by
    rw [Int.le_floor]
    push_cast
    nlinarith
  have hub : ⌊1 + w * (100 - 1) + 1/2⌋ ≤ 100 := by
    rw [Int.floor_le_iff]
    push_cast
    nlinarith
  omega

/-- The coin count at luck value 0 is the minimum bound 1. -/
theorem count_at_min :
    (jsRound (lerp GEOCOIN_CACHE_MIN_VALUE GEOCOIN_CACHE_MAX_VALUE 0)).toNat = 1 := by
  unfold jsRound lerp GEOCOIN_CACHE_MIN_VALUE GEOCOIN_CACHE_MAX_VALUE
  rw [show (1 : ℚ) + 0 * (100 - 1) + 1/2 = 3/2 by norm_num]
  have h : ⌊(3 : ℚ)/2⌋ = 1 := by
    rw [Int.floor_eq_iff]
    constructor <;> norm_num
  rw [h]
  rfl

/-- The coin count at luck value 197/198 is the maximum bound 100. -/
theorem count_at_max :
    (jsRound (lerp GEOCOIN_CACHE_MIN_VALUE GEOCOIN_CACHE_MAX_VALUE (197/198))).toNat = 100 := by
  unfold jsRound lerp GEOCOIN_CACHE_MIN_VALUE GEOCOIN_CACHE_MAX_VALUE
  rw [show (1 : ℚ) + 197/198 * (100 - 1) + 1/2 = 100 by norm_num]
  have h : ⌊(100 : ℚ)⌋ = 100 := by
    rw [Int.floor_eq_iff]
    constructor <;> norm_num
  rw [h]
  rfl

/-- C3 amended: presence is decided by the strict comparison
luck(key) > 1 - P with P = 0.1, and the key for the cell at
36.9999,-122.0001 is exactly "Is there a geocoin cache at
LatLng(36.9999, -122.0001)?" (the coordinate is interpolated through
leaflet.LatLng.prototype.toString), so the cell has a cache iff luck of
that exact string exceeds 0.9. -/
theorem c3_presence_decision (luck : String → ℚ) :
    cachePresenceKey ⟨369999/10000, -1220001/10000⟩ =
      "Is there a geocoin cache at LatLng(36.9999, -122.0001)?" ∧
    ((tryGenerateGeocoinCache luck ⟨369999/10000, -1220001/10000⟩).1 = true ↔
      luck "Is there a geocoin cache at LatLng(36.9999, -122.0001)?" > 9/10) := by
  refine ⟨cachePresenceKey_example, ?_⟩
  rw [tryGenerate_present_iff, cachePresenceKey_example]

/-- C3 counterexample: with a luck function assigning 0.95 to the string
the claim names, "Is there a geocoin cache at 36.9999,-122.0001?", and 0
to every other key, the cell at 36.9999,-122.0001 has no cache even
though luck of the claimed string exceeds 0.9: the key the code passes to
luck is not that string. -/
theorem c3_exact_key_counterexample :
    (tryGenerateGeocoinCache luckClaimedKeyOnly ⟨369999/10000, -1220001/10000⟩).1 =
        false ∧
    luckClaimedKeyOnly "Is there a geocoin cache at 36.9999,-122.0001?" > 9/10 := by
  constructor
  · have hne : cachePresenceKey ⟨369999/10000, -1220001/10000⟩ ≠
        "Is there a geocoin cache at 36.9999,-122.0001?" := by
      rw [cachePresenceKey_example]
      decide
    have hval : luckClaimedKeyOnly
        (cachePresenceKey ⟨369999/10000, -1220001/10000⟩) = 0 := by
      unfold luckClaimedKeyOnly
      rw [if_neg hne]
    have hnot : ¬ ((tryGenerateGeocoinCache luckClaimedKeyOnly
        ⟨369999/10000, -1220001/10000⟩).1 = true) := by
      rw [tryGenerate_present_iff, hval]
      norm_num
    simpa using hnot
  · unfold luckClaimedKeyOnly
    rw [if_pos rfl]
    norm_num

/-- Any luck function equal to 0.95 away from the coin-count key generates
a cache whose size is the rounded interpolation of the value at the
coin-count key. -/
theorem attain_aux (latLng : LatLng) (v : ℚ) :
    (0 ≤ v → 0 ≤ (fun key => if key = cacheCountKey latLng then v else 95/100)
      (cacheCountKey latLng)) ∧
    (v < 1 → (fun key => if key = cacheCountKey latLng then v else 95/100)
      (cacheCountKey latLng) < 1) ∧
    (tryGenerateGeocoinCache
      (fun key => if key = cacheCountKey latLng then v else 95/100) latLng).1 = true ∧
    (tryGenerateGeocoinCache
        (fun key => if key = cacheCountKey latLng then v else 95/100) latLng).2.length =
      (jsRound (lerp GEOCOIN_CACHE_MIN_VALUE GEOCOIN_CACHE_MAX_VALUE v)).toNat := by
  have hp : (tryGenerateGeocoinCache
      (fun key => if key = cacheCountKey latLng then v else 95/100) latLng).1 = true := by
    rw [tryGenerate_present_iff]
    simp only [if_neg (presenceKey_ne_countKey latLng)]
    norm_num
  refine ⟨fun h => by simpa using h, fun h => by simpa using h, hp, ?_⟩
  rw [tryGenerate_coins_of_present _ _ hp]
  simp

/-- C4: for every cell generated with a cache present, the number of
tokens lies within [GEOCOIN_CACHE_MIN_VALUE, GEOCOIN_CACHE_MAX_VALUE] =
[1, 100] inclusive — never zero — the tokens are the labels #index@coord
for index 1..count, and both bounds are attained by suitable luck
values. -/
theorem c4_cache_count_bounds (luck : String → ℚ) (latLng : LatLng)
    (h0 : 0 ≤ luck (cacheCountKey latLng)) (h1 : luck (cacheCountKey latLng) < 1)
    (hc : (tryGenerateGeocoinCache luck latLng).1 = true) :
    (1 ≤ (tryGenerateGeocoinCache luck latLng).2.length ∧
      (tryGenerateGeocoinCache luck latLng).2.length ≤ 100 ∧
      (tryGenerateGeocoinCache luck latLng).2 =
        (List.range (tryGenerateGeocoinCache luck latLng).2.length).map
          (fun i => geocoinLabel (i + 1) latLng)) ∧
    (∃ luckLow : String → ℚ,
      (tryGenerateGeocoinCache luckLow latLng).1 = true ∧
      (tryGenerateGeocoinCache luckLow latLng).2.length = 1) ∧
    (∃ luckHigh : String → ℚ,
      (tryGenerateGeocoinCache luckHigh latLng).1 = true ∧
      (tryGenerateGeocoinCache luckHigh latLng).2.length = 100) := by
  have hcoins := tryGenerate_coins_of_present luck latLng hc
  have hlen : (tryGenerateGeocoinCache luck latLng).2.length =
      (jsRound (lerp GEOCOIN_CACHE_MIN_VALUE GEOCOIN_CACHE_MAX_VALUE
        (luck (cacheCountKey latLng)))).toNat := by
    rw [hcoins]
    simp
  have hb := count_bounds (luck (cacheCountKey latLng)) h0 h1
  refine ⟨⟨?_, ?_, ?_⟩, ?_, ?_⟩
  · rw [hlen]
    exact hb.1
  · rw [hlen]
    exact hb.2
  · rw [hlen, hcoins]
  · refine ⟨fun key => if key = cacheCountKey latLng then 0 else 95/100,
      (attain_aux latLng 0).2.2.1, ?_⟩
    rw [(attain_aux latLng 0).2.2.2, count_at_min]
  · refine ⟨fun key => if key = cacheCountKey latLng then 197/198 else 95/100,
      (attain_aux latLng (197/198)).2.2.1, ?_⟩
    rw [(attain_aux latLng (197/198)).2.2.2, count_at_max]

/-- C4 witness: the luck function luckLowCount satisfies the range
hypotheses at the coin-count key of the origin cell, generates a cache
there, and the theorem's conclusion follows at that input. -/
theorem c4_cache_count_bounds_witness :
    (0 ≤ luckLowCount (cacheCountKey ⟨0, 0⟩) ∧
      luckLowCount (cacheCountKey ⟨0, 0⟩) < 1 ∧
      (tryGenerateGeocoinCache luckLowCount ⟨0, 0⟩).1 = true) ∧
    ((1 ≤ (tryGenerateGeocoinCache luckLowCount ⟨0, 0⟩).2.length ∧
      (tryGenerateGeocoinCache luckLowCount ⟨0, 0⟩).2.length ≤ 100 ∧
      (tryGenerateGeocoinCache luckLowCount ⟨0, 0⟩).2 =
        (List.range (tryGenerateGeocoinCache luckLowCount ⟨0, 0⟩).2.length).map
          (fun i => geocoinLabel (i + 1) ⟨0, 0⟩)) ∧
    (∃ luckLow : String → ℚ,
      (tryGenerateGeocoinCache luckLow ⟨0, 0⟩).1 = true ∧
      (tryGenerateGeocoinCache luckLow ⟨0, 0⟩).2.length = 1) ∧
    (∃ luckHigh : String → ℚ,
      (tryGenerateGeocoinCache luckHigh ⟨0, 0⟩).1 = true ∧
      (tryGenerateGeocoinCache luckHigh ⟨0, 0⟩).2.length = 100)) := by
  have h0 : 0 ≤ luckLowCount (cacheCountKey ⟨0, 0⟩) := by
    simp [luckLowCount]
  have h1 : luckLowCount (cacheCountKey ⟨0, 0⟩) < 1 := by
    simp [luckLowCount]
  have hc : (tryGenerateGeocoinCache luckLowCount ⟨0, 0⟩).1 = true :=
    (attain_aux ⟨0, 0⟩ 0).2.2.1
  exact ⟨⟨h0, h1, hc⟩, c4_cache_count_bounds luckLowCount ⟨0, 0⟩ h0 h1 hc⟩

end Geocache
